import Mathlib

/-!
Shallow embedding of the authentication core of SecureIdentityManager
(server: storage layer, password hashing, and the Express auth routes).

Conventions of the embedding:
* Byte buffers are `List Nat` with each entry `< 256`.
* `scrypt` (Node's `crypto.scrypt`, promisified) is an uninterpreted
  parameter `String → String → Nat → List Nat` (password, salt, keylen).
* Randomness (`randomBytes`) is made explicit: callers of `hashPassword`
  pass the fresh salt bytes.
* Fallible operations return `Except Unit _`; `Except.error ()` models a
  thrown exception (`scrypt` on an undefined salt, `timingSafeEqual` on
  buffers of different lengths).
* JS `Map` objects are association lists `List (Nat × User)` in insertion
  order, since `Array.from(map.values()).find(...)` iterates that order.
-/

namespace SecureIdentity

set_option maxRecDepth 100000

/-- One lowercase hex digit, as produced by Node `Buffer.toString("hex")`. -/
def hexDigitChar (n : Nat) : Char :=
  if n < 10 then Char.ofNat (48 + n) else Char.ofNat (87 + n)

/-- Value of a hex digit character, as accepted by `Buffer.from(s, "hex")`. -/
def hexCharVal? (c : Char) : Option Nat :=
  if 48 ≤ c.toNat ∧ c.toNat ≤ 57 then some (c.toNat - 48)
  else if 97 ≤ c.toNat ∧ c.toNat ≤ 102 then some (c.toNat - 87)
  else if 65 ≤ c.toNat ∧ c.toNat ≤ 70 then some (c.toNat - 55)
  else none

/-- `Buffer.toString("hex")`: two lowercase digits per byte. -/
def bytesToHex : List Nat → List Char
  | [] => []
  | b :: bs => hexDigitChar (b / 16) :: hexDigitChar (b % 16) :: bytesToHex bs

/-- `Buffer.from(s, "hex")`: consumes hex-digit pairs, stopping at the first
invalid pair or at an odd trailing digit (Node truncates silently). -/
def hexDecodeChars : List Char → List Nat
  | c1 :: c2 :: rest =>
    match hexCharVal? c1, hexCharVal? c2 with
    | some hi, some lo => (16 * hi + lo) :: hexDecodeChars rest
    | _, _ => []
  | _ => []

def bytesToHexStr (bs : List Nat) : String := String.mk (bytesToHex bs)

/-- JS `s.split(".")` on character lists: all segments, separators dropped. -/
def splitDotChars : List Char → List (List Char)
  | [] => [[]]
  | c :: cs =>
    if c = '.' then [] :: splitDotChars cs
    else
      match splitDotChars cs with
      | [] => [[c]]
      | s :: ss => (c :: s) :: ss

/-- JS `stored.split(".")`. -/
def jsSplitDot (s : String) : List String :=
  (splitDotChars s.toList).map String.mk

/-- `hashPassword` (server auth module): fresh salt hex-encoded, 64-byte
scrypt digest, serialized as `digest.salt`.  The random salt bytes are an
explicit argument. -/
def hashPassword (scrypt : String → String → Nat → List Nat)
    (password : String) (saltBytes : List Nat) : String :=
  String.mk (bytesToHex (scrypt password (bytesToHexStr saltBytes) 64)
    ++ '.' :: bytesToHex saltBytes)

/-- `comparePasswords` (server auth module).
`const [hashed, salt] = stored.split(".")`: a missing second segment leaves
`salt` undefined and `scrypt` throws; `timingSafeEqual` throws when the two
buffers have different lengths. -/
def comparePasswords (scrypt : String → String → Nat → List Nat)
    (supplied stored : String) : Except Unit Bool :=
  let parts := jsSplitDot stored
  let hashed := parts.headD ""
  match parts[1]? with
  | none => Except.error ()
  | some salt =>
    let hashedBuf := hexDecodeChars hashed.toList
    let suppliedBuf := scrypt supplied salt 64
    if hashedBuf.length = suppliedBuf.length then
      Except.ok (hashedBuf == suppliedBuf)
    else
      Except.error ()

/-- JS `toLowerCase` (ASCII range, which covers the fields in play). -/
def jsToLower (s : String) : String := String.mk (s.toList.map Char.toLower)

/-- JS `x || null`: the empty string is falsy and becomes null. -/
def jsOrNull : Option String → Option String
  | none => none
  | some s => if s = "" then none else some s

/-- JS `s.slice(0, n)`. -/
def jsSlice (s : String) (n : Nat) : String := String.mk (s.toList.take n)

/-- The `users` table row (shared/schema.ts); timestamps are `Nat`. -/
structure User where
  id : Nat
  username : String
  password : String
  email : String
  firstName : Option String
  lastName : Option String
  role : String
  is2FAEnabled : Bool
  twoFactorSecret : Option String
  isPremium : Bool
  stripeCustomerId : Option String
  stripeSubscriptionId : Option String
  lastLogin : Option Nat
  language : String
  walletAddress : Option String
  authType : String
  deriving Repr, DecidableEq

/-- `InsertUser` (shared/schema.ts): the fields `insertUserSchema` picks. -/
structure InsertUser where
  username : String
  password : String
  email : String
  firstName : Option String := none
  lastName : Option String := none
  walletAddress : Option String := none
  authType : Option String := none
  deriving Repr, DecidableEq

/-- `Partial<User>` for `updateUser`: an absent field leaves the stored one
(the JS merge is `{ ...user, ...updates }`). Nullable columns carry
`Option (Option _)` so a patch can set them to null explicitly. -/
structure UserPatch where
  id : Option Nat := none
  username : Option String := none
  password : Option String := none
  email : Option String := none
  firstName : Option (Option String) := none
  lastName : Option (Option String) := none
  role : Option String := none
  is2FAEnabled : Option Bool := none
  twoFactorSecret : Option (Option String) := none
  isPremium : Option Bool := none
  stripeCustomerId : Option (Option String) := none
  stripeSubscriptionId : Option (Option String) := none
  lastLogin : Option (Option Nat) := none
  language : Option String := none
  walletAddress : Option (Option String) := none
  authType : Option String := none
  deriving Repr, DecidableEq

/-- `{ ...user, ...updates }`. -/
def applyPatch (u : User) (p : UserPatch) : User where
  id := p.id.getD u.id
  username := p.username.getD u.username
  password := p.password.getD u.password
  email := p.email.getD u.email
  firstName := p.firstName.getD u.firstName
  lastName := p.lastName.getD u.lastName
  role := p.role.getD u.role
  is2FAEnabled := p.is2FAEnabled.getD u.is2FAEnabled
  twoFactorSecret := p.twoFactorSecret.getD u.twoFactorSecret
  isPremium := p.isPremium.getD u.isPremium
  stripeCustomerId := p.stripeCustomerId.getD u.stripeCustomerId
  stripeSubscriptionId := p.stripeSubscriptionId.getD u.stripeSubscriptionId
  lastLogin := p.lastLogin.getD u.lastLogin
  language := p.language.getD u.language
  walletAddress := p.walletAddress.getD u.walletAddress
  authType := p.authType.getD u.authType

/-- `MemStorage`'s mutable state: `userStorage : Map<number, User>` as an
insertion-ordered association list, plus `currentUserId`. -/
structure Store where
  users : List (Nat × User)
  nextUserId : Nat
  deriving Repr, DecidableEq

namespace MemStorage

/-- `MemStorage.getUser`: `this.userStorage.get(id)`. -/
def getUser (s : Store) (id : Nat) : Option User :=
  (s.users.find? (fun e => e.1 == id)).map Prod.snd

/-- `MemStorage.getUserByUsername` (case-insensitive scan in insertion
order). -/
def getUserByUsername (s : Store) (username : String) : Option User :=
  (s.users.find? (fun e =>
    jsToLower e.2.username == jsToLower username)).map Prod.snd

/-- `MemStorage.getUserByEmail` (case-insensitive scan). -/
def getUserByEmail (s : Store) (email : String) : Option User :=
  (s.users.find? (fun e =>
    jsToLower e.2.email == jsToLower email)).map Prod.snd

/-- `MemStorage.getUserByWalletAddress`: `user.walletAddress?.toLowerCase()
=== walletAddress.toLowerCase()`; a null wallet address never matches. -/
def getUserByWalletAddress (s : Store) (walletAddress : String) : Option User :=
  (s.users.find? (fun e =>
    match e.2.walletAddress with
    | none => false
    | some w => jsToLower w == jsToLower walletAddress)).map Prod.snd

/-- `MemStorage.createUser` (part_011 variant, with wallet fields).
`now` stands for `new Date()`. -/
def createUser (s : Store) (d : InsertUser) (now : Nat) : User × Store :=
  let id := s.nextUserId
  let user : User :=
    { id := id
      username := d.username
      password := d.password
      email := d.email
      firstName := jsOrNull d.firstName
      lastName := jsOrNull d.lastName
      role := "user"
      is2FAEnabled := false
      twoFactorSecret := none
      isPremium := false
      stripeCustomerId := none
      stripeSubscriptionId := none
      lastLogin := some now
      language := "en"
      walletAddress := jsOrNull d.walletAddress
      authType := (jsOrNull d.authType).getD "email" }
  (user, { users := s.users ++ [(id, user)], nextUserId := id + 1 })

/-- Replace the value stored at key `id` (JS `map.set(id, v)` on an
existing key). -/
def setEntry (l : List (Nat × User)) (id : Nat) (v : User) : List (Nat × User) :=
  l.map (fun e => if e.1 = id then (e.1, v) else e)

/-- `MemStorage.updateUser`: throws (`none`) when the id is unknown,
otherwise stores `{ ...user, ...updates }`. -/
def updateUser (s : Store) (id : Nat) (p : UserPatch) : Option (User × Store) :=
  match getUser s id with
  | none => none
  | some u =>
    let updated := applyPatch u p
    some (updated, { s with users := setEntry s.users id updated })

/-- `MemStorage.updateLastLogin`: silently does nothing for an unknown id. -/
def updateLastLogin (s : Store) (id : Nat) (now : Nat) : Store :=
  match getUser s id with
  | none => s
  | some u => { s with users := setEntry s.users id { u with lastLogin := some now } }

end MemStorage

namespace DatabaseStorage

/-- `DatabaseStorage.getUserByUsername`: `where(eq(users.username, username))
.limit(1)` — SQL text equality is exact (case-sensitive). -/
def getUserByUsername (rows : List User) (username : String) : Option User :=
  rows.find? (fun u => u.username == username)

/-- `DatabaseStorage.getUserByEmail` (exact SQL equality). -/
def getUserByEmail (rows : List User) (email : String) : Option User :=
  rows.find? (fun u => u.email == email)

/-- `DatabaseStorage.getUserByWalletAddress` (exact SQL equality; a SQL
NULL compares unequal to every string). -/
def getUserByWalletAddress (rows : List User) (walletAddress : String) : Option User :=
  rows.find? (fun u =>
    match u.walletAddress with
    | none => false
    | some w => w == walletAddress)

end DatabaseStorage

/-- Server-side state an auth request sees: the storage (MemStorage model)
plus the session, which `passport.serializeUser` keys by `user.id`. -/
structure AuthState where
  store : Store
  session : Option Nat
  deriving Repr, DecidableEq

/-- Observable outcome of an auth route (status class plus payload). -/
inductive ApiResponse where
  | badRequest (msg : String)
  | unauthorized (msg : String)
  | serverError
  | requires2FA (userId : Nat) (msg : String)
  | okUser (userId : Nat)
  | createdUser (userId : Nat)
  | okMessage (msg : String)
  deriving Repr, DecidableEq

open MemStorage

/-- `POST /api/login` composed with the `LocalStrategy` verify callback.
`loginUserSchema` requires both fields non-empty; an unknown username and a
wrong password produce the same strategy failure message; a valid password
with `is2FAEnabled` yields the 200 `requires2FA` payload without calling
`req.login`; otherwise `updateLastLogin` runs and `req.login` binds the
session. -/
def loginHandler (scrypt : String → String → Nat → List Nat) (now : Nat)
    (st : AuthState) (username password : String) : ApiResponse × AuthState :=
  if username = "" ∨ password = "" then
    (.badRequest "Invalid input data", st)
  else
    match getUserByUsername st.store username with
    | none => (.unauthorized "Incorrect username or password", st)
    | some user =>
      match comparePasswords scrypt password user.password with
      | .error _ => (.serverError, st)
      | .ok false => (.unauthorized "Incorrect username or password", st)
      | .ok true =>
        if user.is2FAEnabled then
          (.requires2FA user.id "2FA verification required", st)
        else
          (.okUser user.id,
            { store := updateLastLogin st.store user.id now,
              session := some user.id })

/-- Body of `POST /api/verify-2fa`: `verify2FASchema` validates only the
token; `userId` is read from the raw body (absent or 0 is falsy). -/
structure Verify2FABody where
  token : String
  userId : Option Nat
  deriving Repr, DecidableEq

/-- `POST /api/verify-2fa`. `totpVerify` stands for
`speakeasy.totp.verify({secret, token, window: 1})`. The handler never looks
at the current session nor at `is2FAEnabled`: any stored user with a
non-null secret and a valid code is logged in. -/
def verify2faHandler (totpVerify : String → String → Bool) (now : Nat)
    (st : AuthState) (body : Verify2FABody) : ApiResponse × AuthState :=
  if body.token.length ≠ 6 then
    (.badRequest "Invalid verification code", st)
  else
    match body.userId with
    | none => (.badRequest "User ID is required", st)
    | some uid =>
      if uid = 0 then (.badRequest "User ID is required", st)
      else
        match getUser st.store uid with
        | none => (.badRequest "Invalid user or 2FA not setup", st)
        | some user =>
          match user.twoFactorSecret with
          | none => (.badRequest "Invalid user or 2FA not setup", st)
          | some secret =>
            if totpVerify secret body.token then
              (.okUser user.id,
                { store := updateLastLogin st.store user.id now,
                  session := some user.id })
            else
              (.unauthorized "Invalid verification code", st)

/-- `POST /api/register`: username uniqueness is checked first, then email,
both before `createUser`; on success the fresh user is logged in. The salt
for `hashPassword` is explicit. -/
def registerHandler (scrypt : String → String → Nat → List Nat)
    (saltBytes : List Nat) (now : Nat) (st : AuthState)
    (body : InsertUser) : ApiResponse × AuthState :=
  match getUserByUsername st.store body.username with
  | some _ => (.badRequest "Username already exists", st)
  | none =>
    match getUserByEmail st.store body.email with
    | some _ => (.badRequest "Email already in use", st)
    | none =>
      let hashed := hashPassword scrypt body.password saltBytes
      let created := createUser st.store { body with password := hashed } now
      (.createdUser created.1.id,
        { store := created.2, session := some created.1.id })

/-- `POST /api/web3-login`. `siweVerify` stands for
`new SiweMessage(message).verify({signature})` succeeding, `siweAddress` for
the parsed message's address field; `rndPassword`/`saltBytes` make the
random throwaway password explicit. Unknown wallet addresses trigger
implicit registration with `authType: "web3"`. -/
def web3LoginHandler (scrypt : String → String → Nat → List Nat)
    (siweVerify : String → String → Bool) (siweAddress : String → String)
    (rndPassword : String) (saltBytes : List Nat) (now : Nat)
    (st : AuthState) (address signature message : String) :
    ApiResponse × AuthState :=
  if address = "" ∨ signature = "" ∨ message = "" then
    (.badRequest "Invalid input data", st)
  else if ¬ siweVerify message signature then
    (.unauthorized "Invalid signature", st)
  else if jsToLower (siweAddress message) ≠ jsToLower address then
    (.unauthorized "Address mismatch", st)
  else
    match getUserByWalletAddress st.store address with
    | some user =>
      (.okUser user.id,
        { store := updateLastLogin st.store user.id now,
          session := some user.id })
    | none =>
      let insert : InsertUser :=
        { username := "wallet_" ++ jsSlice address 8
          email := jsSlice address 10 ++ "@wallet.eth"
          password := hashPassword scrypt rndPassword saltBytes
          walletAddress := some address
          authType := some "web3" }
      let created := createUser st.store insert now
      (.okUser created.1.id,
        { store := updateLastLogin created.2 created.1.id now,
          session := some created.1.id })

/-- `req.isAuthenticated()` plus `passport.deserializeUser`: the session
must name an id that still resolves in the store. -/
def currentUser (st : AuthState) : Option User :=
  match st.session with
  | none => none
  | some sid => getUser st.store sid

/-- `PATCH /api/user`: forwards the raw request body to
`storage.updateUser` with no schema validation or field filtering. -/
def patchUserHandler (st : AuthState) (body : UserPatch) :
    ApiResponse × AuthState :=
  match currentUser st with
  | none => (.unauthorized "Not authenticated", st)
  | some reqUser =>
    match updateUser st.store reqUser.id body with
    | none => (.serverError, st)
    | some (updated, store2) =>
      (.okUser updated.id, { st with store := store2 })

/-- `POST /api/user/disable-2fa`: clears the flag and the secret with no
verification beyond the session. -/
def disable2faHandler (st : AuthState) : ApiResponse × AuthState :=
  match currentUser st with
  | none => (.unauthorized "Not authenticated", st)
  | some reqUser =>
    match updateUser st.store reqUser.id
        { is2FAEnabled := some false, twoFactorSecret := some none } with
    | none => (.serverError, st)
    | some (_, store2) =>
      (.okMessage "2FA disabled successfully", { st with store := store2 })

/-- `GET /api/admin/users` role guard (server/routes.ts):
`req.isAuthenticated() && req.user.role === "admin"`. -/
def adminGuardAllows (st : AuthState) : Bool :=
  match currentUser st with
  | none => false
  | some u => u.role == "admin"

/-- Shape of a stored hash record that `comparePasswords` cannot process:
either there is no `.`-separated salt segment, or the digest segment does
not decode to the 64 bytes the derived key has (the claim's notion of a
malformed record). -/
def malformedStored (stored : String) : Prop :=
  (jsSplitDot stored)[1]? = none ∨
    (hexDecodeChars ((jsSplitDot stored).headD "").toList).length ≠ 64

/-! ### Concrete fixtures used by witnesses and counterexamples -/

/-- A toy key-derivation function standing in for scrypt in concrete
evaluations: 64 copies of the password length (mod 256). -/
def lenScrypt : String → String → Nat → List Nat :=
  fun p _ n => List.replicate n (p.length % 256)

/-- A TOTP verifier that accepts every code (concrete stand-in). -/
def constTotp : String → String → Bool := fun _ _ => true

def wUserPw : String := hashPassword lenScrypt "pw" [0]

def wUser1 : User :=
  { id := 1, username := "alice", password := wUserPw,
    email := "alice@x.com", firstName := none, lastName := none,
    role := "user", is2FAEnabled := true, twoFactorSecret := some "S",
    isPremium := false, stripeCustomerId := none,
    stripeSubscriptionId := none, lastLogin := none, language := "en",
    walletAddress := none, authType := "email" }

def wStore1 : Store := { users := [(1, wUser1)], nextUserId := 2 }

def wState1 : AuthState := { store := wStore1, session := none }

def wState2 : AuthState := { store := wStore1, session := some 1 }

def wUser2 : User := { wUser1 with is2FAEnabled := false }

def wStore2 : Store := { users := [(1, wUser2)], nextUserId := 2 }

def wState3 : AuthState := { store := wStore2, session := none }

def ex6User : User :=
  { id := 1, username := "Alice", password := "p.q",
    email := "Alice@Example.com", firstName := none, lastName := none,
    role := "user", is2FAEnabled := false, twoFactorSecret := none,
    isPremium := false, stripeCustomerId := none,
    stripeSubscriptionId := none, lastLogin := none, language := "en",
    walletAddress := some "0xAbC", authType := "email" }

def ex6Store : Store := { users := [(1, ex6User)], nextUserId := 2 }

/-! ### Helper lemmas -/

theorem hexCharVal?_hexDigitChar (n : Nat) (h : n < 16) :
    hexCharVal? (hexDigitChar n) = some n := by
  interval_cases n <;> decide

theorem hexDigitChar_ne_dot (n : Nat) (h : n < 16) : hexDigitChar n ≠ '.' := by
  interval_cases n <;> decide

theorem hexDecode_bytesToHex (bs : List Nat) (h : ∀ b ∈ bs, b < 256) :
    hexDecodeChars (bytesToHex bs) = bs := by
  induction bs with
  | nil => rfl
  | cons b bs ih =>
    have hb : b < 256 := h b (by simp)
    have h1 : b / 16 < 16 := by omega
    have h2 : b % 16 < 16 := by omega
    rw [bytesToHex, hexDecodeChars, hexCharVal?_hexDigitChar _ h1,
      hexCharVal?_hexDigitChar _ h2]
    simp only [ih (fun x hx => h x (by simp [hx]))]
    congr 1
    omega

theorem bytesToHex_ne_dot (bs : List Nat) (h : ∀ b ∈ bs, b < 256) :
    ∀ c ∈ bytesToHex bs, c ≠ '.' := by
  induction bs with
  | nil => simp [bytesToHex]
  | cons b bs ih =>
    have hb : b < 256 := h b (by simp)
    intro c hc
    rw [bytesToHex] at hc
    simp only [List.mem_cons] at hc
    rcases hc with rfl | rfl | hc
    · exact hexDigitChar_ne_dot _ (by omega)
    · exact hexDigitChar_ne_dot _ (by omega)
    · exact ih (fun x hx => h x (by simp [hx])) c hc

theorem splitDotChars_ne_nil (l : List Char) : splitDotChars l ≠ [] := by
  cases l with
  | nil => simp [splitDotChars]
  | cons c cs =>
    rw [splitDotChars]
    split
    · simp
    · split <;> simp

theorem splitDotChars_no_dot (l : List Char) (h : ∀ c ∈ l, c ≠ '.') :
    splitDotChars l = [l] := by
  induction l with
  | nil => rfl
  | cons c cs ih =>
    have hc : ¬ (c = '.') := h c (by simp)
    rw [splitDotChars, if_neg hc, ih (fun x hx => h x (by simp [hx]))]

theorem splitDotChars_append (a b : List Char) (h : ∀ c ∈ a, c ≠ '.') :
    splitDotChars (a ++ '.' :: b) = a :: splitDotChars b := by
  induction a with
  | nil => simp [splitDotChars]
  | cons c cs ih =>
    have hc : ¬ (c = '.') := h c (by simp)
    rw [List.cons_append, splitDotChars, if_neg hc,
      ih (fun x hx => h x (by simp [hx]))]

theorem map_find?_unique {α β : Type} (p : α → Bool) (f : α → β) (l : List α)
    (a : α) (ha : a ∈ l) (hpa : p a = true)
    (huniq : ∀ b ∈ l, p b = true → f b = f a) :
    (l.find? p).map f = some (f a) := by
  induction l with
  | nil => cases ha
  | cons x xs ih =>
    by_cases hx : p x = true
    · rw [List.find?_cons_of_pos _ hx]
      simp [huniq x (by simp) hx]
    · have hx' : p x = false := by simpa using hx
      have hax : a ∈ xs := by
        rcases List.mem_cons.mp ha with h | h
        · subst h; rw [hpa] at hx'; cases hx'
        · exact h
      rw [List.find?_cons_of_neg _ (by simp [hx'])]
      exact ih hax (fun b hb hpb => huniq b (by simp [hb]) hpb)

theorem find?_unique {α : Type} (p : α → Bool) (l : List α) (a : α)
    (ha : a ∈ l) (hpa : p a = true)
    (huniq : ∀ b ∈ l, p b = true → b = a) :
    l.find? p = some a := by
  have := map_find?_unique p id l a ha hpa (fun b hb hpb => huniq b hb hpb)
  simpa using this

namespace MemStorage

theorem setEntry_length (l : List (Nat × User)) (id : Nat) (v : User) :
    (setEntry l id v).length = l.length := by
  simp [setEntry]

theorem find?_setEntry_self (l : List (Nat × User)) (id : Nat) (v : User) :
    (setEntry l id v).find? (fun e => e.1 == id) =
      ((l.find? (fun e => e.1 == id)).map (fun e => (e.1, v))) := by
  induction l with
  | nil => rfl
  | cons e es ih =>
    simp only [setEntry, List.map_cons]
    by_cases he : e.1 = id
    · rw [if_pos he]
      rw [List.find?_cons_of_pos _ (by simpa using he),
        List.find?_cons_of_pos _ (by simpa using he)]
      rfl
    · rw [if_neg he]
      rw [List.find?_cons_of_neg _ (by simpa using he),
        List.find?_cons_of_neg _ (by simpa using he)]
      exact ih

theorem find?_setEntry_ne (l : List (Nat × User)) (id k : Nat) (v : User)
    (hne : k ≠ id) :
    (setEntry l id v).find? (fun e => e.1 == k) =
      l.find? (fun e => e.1 == k) := by
  induction l with
  | nil => rfl
  | cons e es ih =>
    simp only [setEntry, List.map_cons]
    by_cases he : e.1 = id
    · have hk : ¬ (e.1 = k) := by omega
      rw [if_pos he]
      rw [List.find?_cons_of_neg _ (by simpa using hk),
        List.find?_cons_of_neg _ (by simpa using hk)]
      exact ih
    · rw [if_neg he]
      by_cases hk : e.1 = k
      · rw [List.find?_cons_of_pos _ (by simpa using hk),
          List.find?_cons_of_pos _ (by simpa using hk)]
      · rw [List.find?_cons_of_neg _ (by simpa using hk),
          List.find?_cons_of_neg _ (by simpa using hk)]
        exact ih

theorem getUser_setEntry_self (s : Store) (id : Nat) (v : User) :
    getUser { s with users := setEntry s.users id v } id =
      (getUser s id).map (fun _ => v) := by
  unfold getUser
  rw [find?_setEntry_self]
  cases s.users.find? (fun e => e.1 == id) <;> rfl

theorem getUser_setEntry_ne (s : Store) (id k : Nat) (v : User) (hne : k ≠ id) :
    getUser { s with users := setEntry s.users id v } k = getUser s k := by
  unfold getUser
  rw [find?_setEntry_ne _ _ _ _ hne]

theorem updateLastLogin_length (s : Store) (id now : Nat) :
    ((updateLastLogin s id now).users).length = s.users.length := by
  unfold updateLastLogin
  cases h : getUser s id <;> simp [setEntry_length]

end MemStorage

theorem find?_append_none {α : Type} (p : α → Bool) (l₁ l₂ : List α)
    (h : l₁.find? p = none) : (l₁ ++ l₂).find? p = l₂.find? p := by
  induction l₁ with
  | nil => rfl
  | cons x xs ih =>
    rw [List.find?_cons] at h
    rcases hx : p x with _ | _
    · rw [List.cons_append, List.find?_cons_of_neg _ (by simp [hx])]
      exact ih (by rwa [hx] at h)
    · rw [hx] at h; cases h

theorem setEntry_of_no_key (l : List (Nat × User)) (id : Nat) (v : User)
    (h : ∀ e ∈ l, e.1 ≠ id) : MemStorage.setEntry l id v = l := by
  induction l with
  | nil => rfl
  | cons e es ih =>
    have he : ¬ (e.1 = id) := h e (by simp)
    simp only [MemStorage.setEntry, List.map_cons, if_neg he]
    rw [show List.map _ es = MemStorage.setEntry es id v from rfl,
      ih (fun x hx => h x (by simp [hx]))]

/-! ### Claims -/

/-- Claim C7: for every password P (and every fresh 16-byte salt, made explicit),
hashing serializes the 64-byte scrypt digest as `digest.salt` and
verification re-derives the digest with the stored salt, so
`comparePasswords P (hashPassword P)` returns true. Quantified over any
key-derivation function producing well-formed bytes. -/
theorem comparePasswords_hashPassword_roundtrip
    (scrypt : String → String → Nat → List Nat)
    (hbytes : ∀ p s : String, ∀ b ∈ scrypt p s 64, b < 256)
    (P : String) (saltBytes : List Nat)
    (hsaltLen : saltBytes.length = 16)
    (hsaltB : ∀ b ∈ saltBytes, b < 256) :
    comparePasswords scrypt P (hashPassword scrypt P saltBytes) =
      Except.ok true := by
  have hd : ∀ b ∈ scrypt P (bytesToHexStr saltBytes) 64, b < 256 := hbytes P _
  have hsplit : splitDotChars ((hashPassword scrypt P saltBytes).toList) =
      [bytesToHex (scrypt P (bytesToHexStr saltBytes) 64), bytesToHex saltBytes] := by
    rw [show (hashPassword scrypt P saltBytes).toList =
        bytesToHex (scrypt P (bytesToHexStr saltBytes) 64) ++
          '.' :: bytesToHex saltBytes from rfl]
    rw [splitDotChars_append _ _ (bytesToHex_ne_dot _ hd),
      splitDotChars_no_dot _ (bytesToHex_ne_dot _ hsaltB)]
  rw [comparePasswords, jsSplitDot, hsplit]
  simp only [List.map_cons, List.map_nil, List.getElem?_cons_succ,
    List.getElem?_cons_zero, List.headD_cons]
  rw [show (String.mk (bytesToHex (scrypt P (bytesToHexStr saltBytes) 64))).toList =
      bytesToHex (scrypt P (bytesToHexStr saltBytes) 64) from rfl]
  rw [hexDecode_bytesToHex _ hd]
  rw [show String.mk (bytesToHex saltBytes) = bytesToHexStr saltBytes from rfl]
  simp

/-- Witness for C7 at a concrete password, salt, and derivation function. -/
theorem comparePasswords_hashPassword_roundtrip_witness :
    comparePasswords lenScrypt "hunter2"
      (hashPassword lenScrypt "hunter2" (List.replicate 16 0)) =
      Except.ok true :=
  comparePasswords_hashPassword_roundtrip lenScrypt
    (by
      intro p s b hb
      simp only [lenScrypt] at hb
      have := List.eq_of_mem_replicate hb
      omega)
    "hunter2" (List.replicate 16 0) (by simp)
    (by
      intro b hb
      have := List.eq_of_mem_replicate hb
      omega)

/-- Counterexample to claim C8: on the malformed stored record "not-a-valid-record"
(no `.`-separated salt segment), `comparePasswords` does not return false —
it throws (scrypt is called with an undefined salt), modelled as
`Except.error`. -/
theorem comparePasswords_malformed_cex :
    comparePasswords lenScrypt "password" "not-a-valid-record" =
        Except.error () ∧
      comparePasswords lenScrypt "password" "not-a-valid-record" ≠
        Except.ok false := by
  refine ⟨rfl, fun h => ?_⟩
  rw [show comparePasswords lenScrypt "password" "not-a-valid-record" =
      Except.error () from rfl] at h
  exact Except.noConfusion h

/-- Claim C8 as amended: for every submitted password and every malformed stored
record (missing salt segment, or digest segment not decoding to the 64-byte
derived-key length), `comparePasswords` raises an error — propagated by the
strategy as a server error — instead of returning false; in particular it
never accepts such a record. -/
theorem comparePasswords_malformed_raises
    (scrypt : String → String → Nat → List Nat)
    (hlen : ∀ p s : String, (scrypt p s 64).length = 64)
    (P S : String) (hmal : malformedStored S) :
    comparePasswords scrypt P S = Except.error () := by
  rw [comparePasswords]
  cases h2 : (jsSplitDot S)[1]? with
  | none => simp
  | some salt =>
    rcases hmal with h | h
    · rw [h2] at h; cases h
    · simp only [h2]
      rw [if_neg (by rw [hlen P salt]; exact h)]

/-- Witness for C8's amended claim at a concrete malformed record. -/
theorem comparePasswords_malformed_raises_witness :
    comparePasswords lenScrypt "pw" "zz.salt" = Except.error () :=
  comparePasswords_malformed_raises lenScrypt
    (fun p s => by simp [lenScrypt]) "pw" "zz.salt"
    (by right; decide)

/-- Counterexample to claim C6: for a stored Identity with username "Alice", email
"Alice@Example.com" and wallet "0xAbC", the DatabaseStorage lookups (exact
SQL equality) miss the lowercased query variants that MemStorage finds, so
the lookups are not case-insensitive in both implementations. -/
theorem db_lookup_case_sensitive_cex :
    DatabaseStorage.getUserByUsername [ex6User] "alice" = none ∧
    DatabaseStorage.getUserByEmail [ex6User] "alice@example.com" = none ∧
    DatabaseStorage.getUserByWalletAddress [ex6User] "0xabc" = none ∧
    jsToLower "alice" = jsToLower ex6User.username ∧
    jsToLower "alice@example.com" = jsToLower ex6User.email ∧
    MemStorage.getUserByUsername ex6Store "alice" = some ex6User ∧
    MemStorage.getUserByEmail ex6Store "alice@example.com" = some ex6User ∧
    MemStorage.getUserByWalletAddress ex6Store "0xabc" = some ex6User := by
  decide

/-- Claim C6 as amended: the MemStorage lookups `getUserByUsername`,
`getUserByEmail`, `getUserByWalletAddress` are case-insensitive — any query
differing only in letter case returns the stored Identity (unique for its
lowercased key) — while the DatabaseStorage lookups use exact string
equality: they return the Identity for a query equal to the stored value,
and miss case variants (counterexample above). -/
theorem mem_lookups_case_insensitive_db_exact
    (st : Store) (key : Nat) (u : User) (rows : List User)
    (qU qE qW w : String)
    (hmem : (key, u) ∈ st.users)
    (hwa : u.walletAddress = some w)
    (huU : ∀ e ∈ st.users, jsToLower e.2.username = jsToLower u.username → e.2 = u)
    (huE : ∀ e ∈ st.users, jsToLower e.2.email = jsToLower u.email → e.2 = u)
    (huW : ∀ e ∈ st.users, ∀ w2, e.2.walletAddress = some w2 →
      jsToLower w2 = jsToLower w → e.2 = u)
    (hqU : jsToLower qU = jsToLower u.username)
    (hqE : jsToLower qE = jsToLower u.email)
    (hqW : jsToLower qW = jsToLower w)
    (hrows : u ∈ rows)
    (hrowsU : ∀ v ∈ rows, v.username = u.username → v = u)
    (hrowsE : ∀ v ∈ rows, v.email = u.email → v = u)
    (hrowsW : ∀ v ∈ rows, ∀ w2, v.walletAddress = some w2 → w2 = w → v = u) :
    MemStorage.getUserByUsername st qU = some u ∧
    MemStorage.getUserByEmail st qE = some u ∧
    MemStorage.getUserByWalletAddress st qW = some u ∧
    DatabaseStorage.getUserByUsername rows u.username = some u ∧
    DatabaseStorage.getUserByEmail rows u.email = some u ∧
    DatabaseStorage.getUserByWalletAddress rows w = some u := by
  refine ⟨?_, ?_, ?_, ?_, ?_, ?_⟩
  · exact map_find?_unique _ Prod.snd st.users (key, u) hmem
      (by simp [hqU])
      (fun b hb hpb => huU b hb (by simpa [hqU] using hpb))
  · exact map_find?_unique _ Prod.snd st.users (key, u) hmem
      (by simp [hqE])
      (fun b hb hpb => huE b hb (by simpa [hqE] using hpb))
  · refine map_find?_unique _ Prod.snd st.users (key, u) hmem ?_ ?_
    · simp only [hwa, hqW, beq_self_eq_true]
    · intro b hb hpb
      cases hb2 : b.2.walletAddress with
      | none => rw [hb2] at hpb; cases hpb
      | some w2 =>
        rw [hb2] at hpb
        exact huW b hb w2 hb2 (by simpa [hqW] using hpb)
  · exact find?_unique _ rows u hrows (by simp)
      (fun v hv hpv => hrowsU v hv (by simpa using hpv))
  · exact find?_unique _ rows u hrows (by simp)
      (fun v hv hpv => hrowsE v hv (by simpa using hpv))
  · refine find?_unique _ rows u hrows ?_ ?_
    · simp only [hwa, beq_self_eq_true]
    · intro v hv hpv
      cases hv2 : v.walletAddress with
      | none => rw [hv2] at hpv; cases hpv
      | some w2 =>
        rw [hv2] at hpv
        exact hrowsW v hv w2 hv2 (by simpa using hpv)

/-- Witness for C6's amended claim at a concrete store and case-variant
queries. -/
theorem mem_lookups_case_insensitive_db_exact_witness :
    MemStorage.getUserByUsername ex6Store "aLiCe" = some ex6User ∧
    MemStorage.getUserByEmail ex6Store "ALICE@exAmple.com" = some ex6User ∧
    MemStorage.getUserByWalletAddress ex6Store "0XABC" = some ex6User ∧
    DatabaseStorage.getUserByUsername [ex6User] "Alice" = some ex6User ∧
    DatabaseStorage.getUserByEmail [ex6User] "Alice@Example.com" = some ex6User ∧
    DatabaseStorage.getUserByWalletAddress [ex6User] "0xAbC" = some ex6User :=
  mem_lookups_case_insensitive_db_exact ex6Store 1 ex6User [ex6User]
    "aLiCe" "ALICE@exAmple.com" "0XABC" "0xAbC"
    (by decide) (by decide) (by decide) (by decide) (by decide)
    (by decide) (by decide) (by decide) (by decide) (by decide)
    (by decide) (by decide)

/-- Shared reduction of the `/api/verify-2fa` happy path: a well-formed
token, a non-zero user id resolving to a stored user with a non-null TOTP
secret, and a code the verifier accepts, yield a 200 and a session bound to
that user. -/
theorem verify2fa_success_core
    (totpVerify : String → String → Bool) (now : Nat) (st : AuthState)
    (token : String) (uid : Nat) (user : User) (secret : String)
    (hlen : token.length = 6) (hid : uid ≠ 0)
    (hget : MemStorage.getUser st.store uid = some user)
    (hsec : user.twoFactorSecret = some secret)
    (hcode : totpVerify secret token = true) :
    verify2faHandler totpVerify now st ⟨token, some uid⟩ =
      (ApiResponse.okUser user.id,
        { store := MemStorage.updateLastLogin st.store user.id now,
          session := some user.id }) := by
  simp [verify2faHandler, hlen, hid, hget, hsec, hcode]

/-- Claim C1: when the submitted password verifies and the user's
second-factor-enabled flag is true, credential login returns the 200
`requires2FA` payload carrying the Identity id, establishes no session (the
state is returned untouched, `req.login` is not called), and a subsequent
successful `/api/verify-2fa` for that user is what binds the session. -/
theorem login_2fa_requires_second_factor
    (scrypt : String → String → Nat → List Nat) (now : Nat)
    (st : AuthState) (username password : String) (user : User)
    (hu : username ≠ "") (hp : password ≠ "")
    (hfind : MemStorage.getUserByUsername st.store username = some user)
    (hpw : comparePasswords scrypt password user.password = Except.ok true)
    (h2fa : user.is2FAEnabled = true) :
    loginHandler scrypt now st username password =
      (ApiResponse.requires2FA user.id "2FA verification required", st) ∧
    (loginHandler scrypt now st username password).2 = st ∧
    (∀ (totpVerify : String → String → Bool) (secret token : String),
      user.twoFactorSecret = some secret → token.length = 6 →
      user.id ≠ 0 → MemStorage.getUser st.store user.id = some user →
      totpVerify secret token = true →
      (verify2faHandler totpVerify now st ⟨token, some user.id⟩).2.session =
        some user.id) := by
  have h1 : loginHandler scrypt now st username password =
      (ApiResponse.requires2FA user.id "2FA verification required", st) := by
    simp [loginHandler, hu, hp, hfind, hpw, h2fa]
  refine ⟨h1, by rw [h1], fun totpVerify secret token hs hl hi hg hc => ?_⟩
  rw [verify2fa_success_core totpVerify now st token user.id user secret
    hl hi hg hs hc]

/-- Witness for C1 at a concrete store with a 2FA-enabled user. -/
theorem login_2fa_requires_second_factor_witness :
    loginHandler lenScrypt 0 wState1 "alice" "pw" =
      (ApiResponse.requires2FA 1 "2FA verification required", wState1) :=
  (login_2fa_requires_second_factor lenScrypt 0 wState1 "alice" "pw" wUser1
    (by decide) (by decide) (by decide) rfl rfl).1

/-- Claim C2: the `/api/verify-2fa` operation never consults the session (no preceding
credential check is required: `st.session` is arbitrary, in particular
`none`) and never consults `is2FAEnabled` (the stored user here is
arbitrary): any request naming a stored user with a non-null TOTP secret
together with a code the window-1 verifier accepts establishes an
authenticated session for that user. -/
theorem verify2fa_accepts_any_user_with_secret
    (totpVerify : String → String → Bool) (now : Nat) (st : AuthState)
    (token : String) (uid : Nat) (user : User) (secret : String)
    (hlen : token.length = 6) (hid : uid ≠ 0)
    (hget : MemStorage.getUser st.store uid = some user)
    (hsec : user.twoFactorSecret = some secret)
    (hcode : totpVerify secret token = true) :
    verify2faHandler totpVerify now st ⟨token, some uid⟩ =
      (ApiResponse.okUser user.id,
        { store := MemStorage.updateLastLogin st.store user.id now,
          session := some user.id }) :=
  verify2fa_success_core totpVerify now st token uid user secret
    hlen hid hget hsec hcode

/-- Witness for C2: a user with `is2FAEnabled = false` and an empty
session (no prior credential submission) is still logged in by a valid
code. -/
theorem verify2fa_accepts_any_user_with_secret_witness :
    wUser2.is2FAEnabled = false ∧ wState3.session = none ∧
    verify2faHandler constTotp 0 wState3 ⟨"123456", some 1⟩ =
      (ApiResponse.okUser 1,
        { store := MemStorage.updateLastLogin wStore2 1 0,
          session := some 1 }) :=
  ⟨rfl, rfl,
    verify2fa_accepts_any_user_with_secret constTotp 0 wState3 "123456" 1
      wUser2 "S" (by decide) (by decide) (by decide) rfl rfl⟩

/-- Claim C9: a login attempt with an unknown username and one with a known
username but a wrong password produce identical observable failures — the
same 401 status and the same "Incorrect username or password" message. -/
theorem login_failures_indistinguishable
    (scrypt : String → String → Nat → List Nat) (now : Nat)
    (st : AuthState) (u1 p1 u2 p2 : String) (user : User)
    (h1 : u1 ≠ "") (h2 : p1 ≠ "") (h3 : u2 ≠ "") (h4 : p2 ≠ "")
    (hnone : MemStorage.getUserByUsername st.store u1 = none)
    (hsome : MemStorage.getUserByUsername st.store u2 = some user)
    (hbad : comparePasswords scrypt p2 user.password = Except.ok false) :
    (loginHandler scrypt now st u1 p1).1 = (loginHandler scrypt now st u2 p2).1 ∧
    (loginHandler scrypt now st u1 p1).1 =
      ApiResponse.unauthorized "Incorrect username or password" := by
  have e1 : loginHandler scrypt now st u1 p1 =
      (ApiResponse.unauthorized "Incorrect username or password", st) := by
    simp [loginHandler, h1, h2, hnone]
  have e2 : loginHandler scrypt now st u2 p2 =
      (ApiResponse.unauthorized "Incorrect username or password", st) := by
    simp [loginHandler, h3, h4, hsome, hbad]
  rw [e1, e2]
  exact ⟨rfl, rfl⟩

/-- Witness for C9: unknown user "bob" versus known "alice" with a wrong
password. -/
theorem login_failures_indistinguishable_witness :
    (loginHandler lenScrypt 0 wState1 "bob" "x").1 =
      (loginHandler lenScrypt 0 wState1 "alice" "wrong").1 :=
  (login_failures_indistinguishable lenScrypt 0 wState1 "bob" "x"
    "alice" "wrong" wUser1 (by decide) (by decide) (by decide) (by decide)
    (by decide) (by decide) rfl).1

/-- Claim C3: the `PATCH /api/user` operation hands the raw body to `storage.updateUser`
with no validation or field filtering: for any authenticated user and any
subset of Identity fields in the body (role, isPremium, password,
twoFactorSecret, is2FAEnabled included), the stored record afterwards is
exactly the old record overwritten by the supplied fields, every other
record is untouched, and a body setting role to "admin" makes the caller
pass the admin-route role guard. -/
theorem patchUser_forwards_body_unfiltered
    (st : AuthState) (sid : Nat) (user : User) (body : UserPatch)
    (hsid : st.session = some sid)
    (hget : MemStorage.getUser st.store sid = some user)
    (hid : user.id = sid) :
    patchUserHandler st body =
      (ApiResponse.okUser (applyPatch user body).id,
        { store := { st.store with
            users := MemStorage.setEntry st.store.users sid (applyPatch user body) },
          session := st.session }) ∧
    MemStorage.getUser (patchUserHandler st body).2.store sid =
      some (applyPatch user body) ∧
    (∀ k, k ≠ sid →
      MemStorage.getUser (patchUserHandler st body).2.store k =
        MemStorage.getUser st.store k) ∧
    (body.role = some "admin" →
      adminGuardAllows (patchUserHandler st body).2 = true) := by
  have hcur : currentUser st = some user := by
    simp [currentUser, hsid, hget]
  have hupd : MemStorage.updateUser st.store user.id body =
      some (applyPatch user body,
        { st.store with
          users := MemStorage.setEntry st.store.users sid (applyPatch user body) }) := by
    simp [MemStorage.updateUser, hid, hget]
  have h1 : patchUserHandler st body =
      (ApiResponse.okUser (applyPatch user body).id,
        { store := { st.store with
            users := MemStorage.setEntry st.store.users sid (applyPatch user body) },
          session := st.session }) := by
    simp [patchUserHandler, hcur, hupd]
  have h2 : MemStorage.getUser (patchUserHandler st body).2.store sid =
      some (applyPatch user body) := by
    rw [h1, MemStorage.getUser_setEntry_self, hget]
    rfl
  refine ⟨h1, h2, ?_, ?_⟩
  · intro k hk
    rw [h1]
    exact MemStorage.getUser_setEntry_ne st.store sid k _ hk
  · intro hrole
    have : (applyPatch user body).role = "admin" := by
      simp [applyPatch, hrole]
    simp [adminGuardAllows, currentUser, h1, hsid,
      MemStorage.getUser_setEntry_self, hget, this]

/-- Witness for C3: a plain user patching their own role to "admin" then
passing the `GET /api/admin/users` guard. -/
theorem patchUser_forwards_body_unfiltered_witness :
    wUser1.role = "user" ∧
    adminGuardAllows (patchUserHandler wState2 { role := some "admin" }).2 = true :=
  ⟨rfl,
    (patchUser_forwards_body_unfiltered wState2 1 wUser1 { role := some "admin" }
      rfl (by decide) rfl).2.2.2 rfl⟩

/-- Claim C10: the `POST /api/user/disable-2fa` operation with any authenticated session
unconditionally stores the user with `is2FAEnabled := false` and
`twoFactorSecret := none`, leaving every other field of that Identity and
every other Identity unchanged. -/
theorem disable2fa_clears_and_frames
    (st : AuthState) (sid : Nat) (user : User)
    (hsid : st.session = some sid)
    (hget : MemStorage.getUser st.store sid = some user)
    (hid : user.id = sid) :
    disable2faHandler st =
      (ApiResponse.okMessage "2FA disabled successfully",
        { store := { st.store with
            users := MemStorage.setEntry st.store.users sid
              { user with is2FAEnabled := false, twoFactorSecret := none } },
          session := st.session }) ∧
    MemStorage.getUser (disable2faHandler st).2.store sid =
      some { user with is2FAEnabled := false, twoFactorSecret := none } ∧
    (∀ k, k ≠ sid →
      MemStorage.getUser (disable2faHandler st).2.store k =
        MemStorage.getUser st.store k) := by
  have hcur : currentUser st = some user := by
    simp [currentUser, hsid, hget]
  have hpatch : applyPatch user
      { is2FAEnabled := some false, twoFactorSecret := some none } =
      { user with is2FAEnabled := false, twoFactorSecret := none } := rfl
  have hupd : MemStorage.updateUser st.store user.id
      { is2FAEnabled := some false, twoFactorSecret := some none } =
      some ({ user with is2FAEnabled := false, twoFactorSecret := none },
        { st.store with
          users := MemStorage.setEntry st.store.users sid
            { user with is2FAEnabled := false, twoFactorSecret := none } }) := by
    simp [MemStorage.updateUser, hid, hget, hpatch]
  have h1 : disable2faHandler st =
      (ApiResponse.okMessage "2FA disabled successfully",
        { store := { st.store with
            users := MemStorage.setEntry st.store.users sid
              { user with is2FAEnabled := false, twoFactorSecret := none } },
          session := st.session }) := by
    simp [disable2faHandler, hcur, hupd]
  refine ⟨h1, ?_, ?_⟩
  · rw [h1, MemStorage.getUser_setEntry_self, hget]
    rfl
  · intro k hk
    rw [h1]
    exact MemStorage.getUser_setEntry_ne st.store sid k _ hk

/-- Witness for C10 at a concrete authenticated state. -/
theorem disable2fa_clears_and_frames_witness :
    MemStorage.getUser (disable2faHandler wState2).2.store 1 =
      some { wUser1 with is2FAEnabled := false, twoFactorSecret := none } :=
  (disable2fa_clears_and_frames wState2 1 wUser1 rfl (by decide) rfl).2.1

/-- Claim C5: a register request whose username or email already resolves in the
store fails with the 400 already-exists rejection, and the state — store
and session both — is unchanged: both uniqueness checks run before any
write. -/
theorem register_duplicate_rejected
    (scrypt : String → String → Nat → List Nat) (saltBytes : List Nat)
    (now : Nat) (st : AuthState) (body : InsertUser)
    (hdup : (MemStorage.getUserByUsername st.store body.username).isSome ∨
            (MemStorage.getUserByEmail st.store body.email).isSome) :
    ((registerHandler scrypt saltBytes now st body).1 =
        ApiResponse.badRequest "Username already exists" ∨
      (registerHandler scrypt saltBytes now st body).1 =
        ApiResponse.badRequest "Email already in use") ∧
    (registerHandler scrypt saltBytes now st body).2 = st := by
  cases hu : MemStorage.getUserByUsername st.store body.username with
  | some u =>
    refine ⟨Or.inl ?_, ?_⟩ <;> simp [registerHandler, hu]
  | none =>
    cases he : MemStorage.getUserByEmail st.store body.email with
    | some u =>
      refine ⟨Or.inr ?_, ?_⟩ <;> simp [registerHandler, hu, he]
    | none =>
      rcases hdup with h | h
      · rw [hu] at h; simp at h
      · rw [he] at h; simp at h

/-- Witness for C5: registering the already-taken username "alice". -/
theorem register_duplicate_rejected_witness :
    ((registerHandler lenScrypt [0] 0 wState1
        { username := "alice", password := "x", email := "new@x.com" }).1 =
      ApiResponse.badRequest "Username already exists" ∨
      (registerHandler lenScrypt [0] 0 wState1
        { username := "alice", password := "x", email := "new@x.com" }).1 =
      ApiResponse.badRequest "Email already in use") ∧
    (registerHandler lenScrypt [0] 0 wState1
      { username := "alice", password := "x", email := "new@x.com" }).2 = wState1 :=
  register_duplicate_rejected lenScrypt [0] 0 wState1
    { username := "alice", password := "x", email := "new@x.com" }
    (by left; decide)

/-- A freshly created user is retrievable under the key `currentUserId`
used at creation, provided all existing keys are below that counter (the
invariant `createUser` maintains). -/
theorem createUser_getUser_fresh (s : Store) (d : InsertUser) (now : Nat)
    (hfresh : ∀ e ∈ s.users, e.1 < s.nextUserId) :
    MemStorage.getUser (MemStorage.createUser s d now).2 s.nextUserId =
      some (MemStorage.createUser s d now).1 := by
  have hnone : s.users.find? (fun e => e.1 == s.nextUserId) = none :=
    List.find?_eq_none.mpr (fun e he => by
      have := hfresh e he
      simp
      omega)
  show ((s.users ++ [(s.nextUserId, (MemStorage.createUser s d now).1)]).find?
      (fun e => e.1 == s.nextUserId)).map Prod.snd = _
  rw [find?_append_none _ _ _ hnone, List.find?_cons_of_pos _ (by simp)]
  rfl

/-- `updateLastLogin` on the just-created user is the identity: the fresh
record already carries `lastLogin = now` and no other entry has its key. -/
theorem createUser_updateLastLogin_fresh (s : Store) (d : InsertUser) (now : Nat)
    (hfresh : ∀ e ∈ s.users, e.1 < s.nextUserId) :
    MemStorage.updateLastLogin (MemStorage.createUser s d now).2
        s.nextUserId now = (MemStorage.createUser s d now).2 := by
  have hnokey : ∀ e ∈ s.users, e.1 ≠ s.nextUserId := fun e he => by
    have := hfresh e he
    omega
  have hset : MemStorage.setEntry
      (s.users ++ [(s.nextUserId, (MemStorage.createUser s d now).1)])
      s.nextUserId (MemStorage.createUser s d now).1 =
      s.users ++ [(s.nextUserId, (MemStorage.createUser s d now).1)] := by
    rw [show MemStorage.setEntry
          (s.users ++ [(s.nextUserId, (MemStorage.createUser s d now).1)])
          s.nextUserId (MemStorage.createUser s d now).1 =
        MemStorage.setEntry s.users s.nextUserId (MemStorage.createUser s d now).1 ++
          MemStorage.setEntry [(s.nextUserId, (MemStorage.createUser s d now).1)]
            s.nextUserId (MemStorage.createUser s d now).1 from
      List.map_append _ _ _]
    rw [setEntry_of_no_key _ _ _ hnokey]
    simp [MemStorage.setEntry]
  rw [MemStorage.updateLastLogin, createUser_getUser_fresh s d now hfresh]
  show Store.mk (MemStorage.setEntry
      (s.users ++ [(s.nextUserId, (MemStorage.createUser s d now).1)])
      s.nextUserId (MemStorage.createUser s d now).1) (s.nextUserId + 1) =
    (MemStorage.createUser s d now).2
  rw [hset]
  rfl

/-- After creating a user around wallet address `a`, looking `a` up finds
exactly that user, provided the lookup found nothing before. -/
theorem getUserByWalletAddress_createUser (s : Store) (d : InsertUser)
    (now : Nat) (address : String)
    (habsent : MemStorage.getUserByWalletAddress s address = none)
    (hw : d.walletAddress = some address) (haddr : address ≠ "") :
    MemStorage.getUserByWalletAddress (MemStorage.createUser s d now).2 address =
      some (MemStorage.createUser s d now).1 := by
  have hfind : s.users.find? (fun e =>
      match e.2.walletAddress with
      | none => false
      | some w => jsToLower w == jsToLower address) = none :=
    Option.map_eq_none'.mp habsent
  show ((s.users ++ [(s.nextUserId, (MemStorage.createUser s d now).1)]).find?
      (fun e =>
        match e.2.walletAddress with
        | none => false
        | some w => jsToLower w == jsToLower address)).map Prod.snd = _
  rw [find?_append_none _ _ _ hfind,
    List.find?_cons_of_pos _ (by
      show (match (MemStorage.createUser s d now).1.walletAddress with
        | none => false
        | some w => jsToLower w == jsToLower address) = true
      rw [show (MemStorage.createUser s d now).1.walletAddress =
          jsOrNull d.walletAddress from rfl, hw]
      simp [jsOrNull, haddr])]
  rfl

/-- Claim C4: a wallet login whose signature verifies and whose message address
case-insensitively equals the claimed address, when no Identity has that
wallet address, creates a new Identity with the web3 auth tag, the given
wallet address, a freshly generated random password hash, and default role;
the request ends with a session bound to the new Identity; and any later
login from the same address (in particular from the post-state, where the
lookup now resolves) returns that same Identity without creating another
record. -/
theorem web3Login_implicit_wallet_registration
    (scrypt : String → String → Nat → List Nat)
    (siweVerify : String → String → Bool) (siweAddress : String → String)
    (rndPassword : String) (saltBytes : List Nat) (now : Nat)
    (st : AuthState) (address signature message : String)
    (haddr : address ≠ "") (hsig : signature ≠ "") (hmsg : message ≠ "")
    (hver : siweVerify message signature = true)
    (hmatch : jsToLower (siweAddress message) = jsToLower address)
    (habsent : MemStorage.getUserByWalletAddress st.store address = none)
    (hfresh : ∀ e ∈ st.store.users, e.1 < st.store.nextUserId) :
    ∃ newUser : User,
      web3LoginHandler scrypt siweVerify siweAddress rndPassword saltBytes now
          st address signature message =
        (ApiResponse.okUser newUser.id,
          { store := { users := st.store.users ++ [(newUser.id, newUser)],
                       nextUserId := newUser.id + 1 },
            session := some newUser.id }) ∧
      newUser.id = st.store.nextUserId ∧
      newUser.authType = "web3" ∧
      newUser.walletAddress = some address ∧
      newUser.password = hashPassword scrypt rndPassword saltBytes ∧
      newUser.role = "user" ∧
      MemStorage.getUserByWalletAddress
        (web3LoginHandler scrypt siweVerify siweAddress rndPassword saltBytes
          now st address signature message).2.store address = some newUser ∧
      (∀ st2 : AuthState,
        MemStorage.getUserByWalletAddress st2.store address = some newUser →
        (web3LoginHandler scrypt siweVerify siweAddress rndPassword saltBytes
            now st2 address signature message).1 =
          ApiResponse.okUser newUser.id ∧
        (web3LoginHandler scrypt siweVerify siweAddress rndPassword saltBytes
            now st2 address signature message).2.session = some newUser.id ∧
        (web3LoginHandler scrypt siweVerify siweAddress rndPassword saltBytes
            now st2 address signature message).2.store.users.length =
          st2.store.users.length) := by
  have hstep : web3LoginHandler scrypt siweVerify siweAddress rndPassword
      saltBytes now st address signature message =
      (ApiResponse.okUser
        (MemStorage.createUser st.store
          { username := "wallet_" ++ jsSlice address 8,
            email := jsSlice address 10 ++ "@wallet.eth",
            password := hashPassword scrypt rndPassword saltBytes,
            walletAddress := some address,
            authType := some "web3" } now).1.id,
        { store := MemStorage.updateLastLogin
            (MemStorage.createUser st.store
              { username := "wallet_" ++ jsSlice address 8,
                email := jsSlice address 10 ++ "@wallet.eth",
                password := hashPassword scrypt rndPassword saltBytes,
                walletAddress := some address,
                authType := some "web3" } now).2
            (MemStorage.createUser st.store
              { username := "wallet_" ++ jsSlice address 8,
                email := jsSlice address 10 ++ "@wallet.eth",
                password := hashPassword scrypt rndPassword saltBytes,
                walletAddress := some address,
                authType := some "web3" } now).1.id now,
          session := some (MemStorage.createUser st.store
            { username := "wallet_" ++ jsSlice address 8,
              email := jsSlice address 10 ++ "@wallet.eth",
              password := hashPassword scrypt rndPassword saltBytes,
              walletAddress := some address,
              authType := some "web3" } now).1.id }) := by
    unfold web3LoginHandler
    rw [if_neg (by simp [haddr, hsig, hmsg]), if_neg (by simp [hver]),
      if_neg (by simp [hmatch]), habsent]
  have hll : MemStorage.updateLastLogin
      (MemStorage.createUser st.store
        { username := "wallet_" ++ jsSlice address 8,
          email := jsSlice address 10 ++ "@wallet.eth",
          password := hashPassword scrypt rndPassword saltBytes,
          walletAddress := some address,
          authType := some "web3" } now).2
      (MemStorage.createUser st.store
        { username := "wallet_" ++ jsSlice address 8,
          email := jsSlice address 10 ++ "@wallet.eth",
          password := hashPassword scrypt rndPassword saltBytes,
          walletAddress := some address,
          authType := some "web3" } now).1.id now =
      (MemStorage.createUser st.store
        { username := "wallet_" ++ jsSlice address 8,
          email := jsSlice address 10 ++ "@wallet.eth",
          password := hashPassword scrypt rndPassword saltBytes,
          walletAddress := some address,
          authType := some "web3" } now).2 :=
    createUser_updateLastLogin_fresh st.store _ now hfresh
  refine ⟨(MemStorage.createUser st.store
      { username := "wallet_" ++ jsSlice address 8,
        email := jsSlice address 10 ++ "@wallet.eth",
        password := hashPassword scrypt rndPassword saltBytes,
        walletAddress := some address,
        authType := some "web3" } now).1,
    ?_, rfl, ?_, ?_, rfl, rfl, ?_, ?_⟩
  · rw [hstep, hll]
    rfl
  · show (jsOrNull (some "web3")).getD "email" = "web3"
    simp [jsOrNull]
  · show jsOrNull (some address) = some address
    simp [jsOrNull, haddr]
  · rw [hstep, hll]
    exact getUserByWalletAddress_createUser st.store _ now address habsent
      rfl haddr
  · intro st2 h
    have hstep2 : web3LoginHandler scrypt siweVerify siweAddress rndPassword
        saltBytes now st2 address signature message =
        (ApiResponse.okUser (MemStorage.createUser st.store
          { username := "wallet_" ++ jsSlice address 8,
            email := jsSlice address 10 ++ "@wallet.eth",
            password := hashPassword scrypt rndPassword saltBytes,
            walletAddress := some address,
            authType := some "web3" } now).1.id,
          { store := MemStorage.updateLastLogin st2.store
              (MemStorage.createUser st.store
                { username := "wallet_" ++ jsSlice address 8,
                  email := jsSlice address 10 ++ "@wallet.eth",
                  password := hashPassword scrypt rndPassword saltBytes,
                  walletAddress := some address,
                  authType := some "web3" } now).1.id now,
            session := some (MemStorage.createUser st.store
              { username := "wallet_" ++ jsSlice address 8,
                email := jsSlice address 10 ++ "@wallet.eth",
                password := hashPassword scrypt rndPassword saltBytes,
                walletAddress := some address,
                authType := some "web3" } now).1.id }) := by
      unfold web3LoginHandler
      rw [if_neg (by simp [haddr, hsig, hmsg]), if_neg (by simp [hver]),
        if_neg (by simp [hmatch]), h]
    refine ⟨by rw [hstep2], by rw [hstep2], ?_⟩
    rw [hstep2]
    exact MemStorage.updateLastLogin_length st2.store _ now

/-- Witness for C4 at a concrete state with no wallet users, an
always-accepting signature verifier, and address "0xAB". -/
theorem web3Login_implicit_wallet_registration_witness :
    ∃ newUser : User,
      web3LoginHandler lenScrypt (fun _ _ => true) (fun _ => "0xab") "r" [0] 0
          wState1 "0xAB" "sig" "msg" =
        (ApiResponse.okUser newUser.id,
          { store := { users := wState1.store.users ++ [(newUser.id, newUser)],
                       nextUserId := newUser.id + 1 },
            session := some newUser.id }) ∧
      newUser.id = wState1.store.nextUserId ∧
      newUser.authType = "web3" ∧
      newUser.walletAddress = some "0xAB" ∧
      newUser.password = hashPassword lenScrypt "r" [0] ∧
      newUser.role = "user" ∧
      MemStorage.getUserByWalletAddress
        (web3LoginHandler lenScrypt (fun _ _ => true) (fun _ => "0xab") "r" [0]
          0 wState1 "0xAB" "sig" "msg").2.store "0xAB" = some newUser ∧
      (∀ st2 : AuthState,
        MemStorage.getUserByWalletAddress st2.store "0xAB" = some newUser →
        (web3LoginHandler lenScrypt (fun _ _ => true) (fun _ => "0xab") "r" [0]
            0 st2 "0xAB" "sig" "msg").1 = ApiResponse.okUser newUser.id ∧
        (web3LoginHandler lenScrypt (fun _ _ => true) (fun _ => "0xab") "r" [0]
            0 st2 "0xAB" "sig" "msg").2.session = some newUser.id ∧
        (web3LoginHandler lenScrypt (fun _ _ => true) (fun _ => "0xab") "r" [0]
            0 st2 "0xAB" "sig" "msg").2.store.users.length =
          st2.store.users.length) :=
  web3Login_implicit_wallet_registration lenScrypt (fun _ _ => true)
    (fun _ => "0xab") "r" [0] 0 wState1 "0xAB" "sig" "msg"
    (by decide) (by decide) (by decide) rfl (by decide) (by decide)
    (by decide)

end SecureIdentity
